import Mathlib

/-!
Shallow embedding of the gmo-bot-conoha market-making bot (Rust) and proofs
about it.

Modelling conventions:
* `f64` values are modelled as `ℚ`.  The transcendental `f64` primitives
  (`powf`, `ln`, `sqrt`) have no rational counterpart, so the definitions
  that use them take them as explicit function parameters; the theorems
  below never depend on their values beyond hypotheses that are true of the
  real functions (e.g. `ln 1 = 0`, `sqrt 0 = 0`).
* `u64` values are modelled as `ℕ`; where an overflowing/underflowing
  operation matters it is made explicit (`BayesProb.update` returns
  `Option`, mirroring the debug-mode panic of `u64` subtraction underflow).
* `Instant`/timestamps are modelled as `ℕ` tick values passed explicitly
  (`now`), since the Rust code reads the clock inside the functions.
* Rust loops over `BTreeMap`s / `Vec`s are modelled as folds over lists
  given in iteration order.
-/

namespace GmoBot

/-! ### util.rs -/

/-- `f64::round` rounds half away from zero. -/
def rustRound (x : ℚ) : ℤ :=
  if x < 0 then -(Int.floor (-x + 1/2)) else Int.floor (x + 1/2)

/-- `util::round_size`: round to 8 decimal places
(`(size * 10^8).round() / 10^8`). -/
def round_size (size : ℚ) : ℚ :=
  ((rustRound (size * 10^8) : ℚ)) / 10^8

/-! ### time_queue.rs -/

/-- `TimeQueue<T>`: keeps data from the last `duration` ticks.  Each entry is
stored with its arrival instant. -/
structure TimeQueue (T : Type) where
  duration : ℕ
  data : List (ℕ × T)
  deriving Repr, DecidableEq

namespace TimeQueue

def new (T : Type) (duration : ℕ) : TimeQueue T :=
  { duration := duration, data := [] }

/-- `push`: append one item stamped with the current instant `now`. -/
def push {T : Type} (q : TimeQueue T) (now : ℕ) (item : T) : TimeQueue T :=
  { q with data := q.data ++ [(now, item)] }

/-- `extend`: append several items, all stamped with the same instant. -/
def extend {T : Type} (q : TimeQueue T) (now : ℕ) (items : List T) : TimeQueue T :=
  { q with data := q.data ++ items.map (fun item => (now, item)) }

/-- `get_data`: the items without their instants. -/
def get_data {T : Type} (q : TimeQueue T) : List T :=
  q.data.map Prod.snd

/-- `retain`: keep only entries whose age `now - instant` is at most
`duration`.  (`Instant::duration_since` saturates at zero, matching `ℕ`
truncated subtraction.) -/
def retain {T : Type} (q : TimeQueue T) (now : ℕ) : TimeQueue T :=
  { q with data := q.data.filter (fun e => now - e.1 ≤ q.duration) }

def len {T : Type} (q : TimeQueue T) : ℕ := q.data.length

end TimeQueue

/-! ### bayes_prob.rs -/

/-- `BetaDistribution { a: u64, b: u64 }`. -/
structure BetaDistribution where
  a : ℕ
  b : ℕ
  deriving Repr, DecidableEq

def BetaDistribution.new (a b : ℕ) : BetaDistribution := ⟨a, b⟩

/-- `BayesProb`: Bayesian Beta-Bernoulli estimator over a sliding time
window. -/
structure BayesProb where
  distribution : BetaDistribution
  prior : BetaDistribution
  time_data : TimeQueue (ℕ × ℕ)
  deriving Repr, DecidableEq

namespace BayesProb

def new (prior_distribution : BetaDistribution) (retain_duration : ℕ) : BayesProb :=
  { distribution := prior_distribution
    prior := prior_distribution
    time_data := TimeQueue.new _ retain_duration }

/-- `BayesProb::update(n, r)`: retain the window, push the new observation,
sum trials/successes over the window, and set
`distribution = Be(prior.a + total_r, prior.b + (total_n - total_r))`.
The `u64` subtraction `total_n - total_r` panics on underflow in debug
builds; the embedding returns `none` in that case. -/
def update (bp : BayesProb) (now : ℕ) (n r : ℕ) : Option BayesProb :=
  let td := (bp.time_data.retain now).push now (n, r)
  let totals := td.get_data.foldl
    (fun acc p => (acc.1 + p.1, acc.2 + p.2)) ((0 : ℕ), (0 : ℕ))
  if totals.2 ≤ totals.1 then
    some { bp with
      time_data := td
      distribution := BetaDistribution.new
        (bp.prior.a + totals.2) (bp.prior.b + (totals.1 - totals.2)) }
  else
    none

/-- `BayesProb::calc_average`: mean of the Beta distribution, clamped to
`[0, 1]`, with `0.5` when `a + b = 0`. -/
def calc_average (bp : BayesProb) : ℚ :=
  let denominator := bp.distribution.a + bp.distribution.b
  if denominator = 0 then 1/2
  else
    let e : ℚ := (bp.distribution.a : ℚ) / (denominator : ℚ)
    if e < 0 then 0 else if 1 < e then 1 else e

end BayesProb

/-! ### model.rs -/

/-- `Position`: gross long/short sizes and weighted-average open prices. -/
structure Position where
  long_size : ℚ
  short_size : ℚ
  long_open_price : ℚ
  short_open_price : ℚ
  deriving Repr, DecidableEq

def Position.new : Position := ⟨0, 0, 0, 0⟩

/-- `OrderSide`. -/
inductive OrderSide where
  | Unknown
  | BUY
  | SELL
  deriving Repr, DecidableEq

/-- `Display for OrderSide`. -/
def OrderSide.toStr : OrderSide → String
  | .BUY => "BUY"
  | .SELL => "SELL"
  | .Unknown => "Unknown"

/-- `OrderInfo`: data stored for each open order in the open-orders map. -/
structure OrderInfo where
  price : ℕ
  size : ℚ
  side : OrderSide
  timestamp : ℕ
  is_close : Bool
  mid_price : ℕ
  t_optimal_ms : ℕ
  sigma_1s : ℚ
  spread_pct : ℚ
  level : ℕ
  p_fill : ℚ
  best_ev : ℚ
  single_leg_ev : ℚ
  deriving Repr, DecidableEq

/-- `FloatingExp { base, exp, rate }`: a spread level.  Its numeric value is
`base.powf(exp) * rate`; since `powf` is transcendental the model takes it
as a parameter. -/
structure FloatingExp where
  base : ℚ
  exp : ℚ
  rate : ℚ
  deriving Repr, DecidableEq

/-- `FloatingExp::calc` (named `value` here because `calc` is a Lean
keyword): `base.powf(exp) * rate`. -/
def FloatingExp.value (powf : ℚ → ℚ → ℚ) (fe : FloatingExp) : ℚ :=
  powf fe.base fe.exp * fe.rate

/-! ### gmo_bot.rs: quote optimisation -/

/-- `expected_value`: expected profit of a (buy level, sell level) pair minus
the single-leg loss penalty. -/
def expected_value (powf : ℚ → ℚ → ℚ) (mid_price volatility alpha : ℚ)
    (buy sell : FloatingExp) (buy_data sell_data : ℚ × BayesProb) : ℚ :=
  let buy_probability := buy_data.2.calc_average
  let sell_probability := sell_data.2.calc_average
  let buy_price := mid_price - (mid_price * buy.value powf)
  let sell_price := mid_price + (mid_price * sell.value powf)
  let expected_profit := buy_probability * sell_probability * (sell_price - buy_price)
  let expected_loss :=
    (buy_probability * (1 - sell_probability) + sell_probability * (1 - buy_probability))
      * volatility * alpha
  expected_profit - expected_loss

/-- Modelled from the spec: the reference expected-value formula, written
from the spec's own words: with `buy_price = mid − mid*buy.value()` and
`sell_price = mid + mid*sell.value()`,
`EV = P_buy*P_sell*(sell_price−buy_price) − [P_buy*(1−P_sell) +
P_sell*(1−P_buy)] * volatility * alpha`, where `P_buy`/`P_sell` are the
posterior means of the two levels' fill estimators. -/
def expected_value_spec_formula (powf : ℚ → ℚ → ℚ) (mid_price volatility alpha : ℚ)
    (buy sell : FloatingExp) (buy_data sell_data : ℚ × BayesProb) : ℚ :=
  let p_buy := buy_data.2.calc_average
  let p_sell := sell_data.2.calc_average
  let buy_price := mid_price - mid_price * buy.value powf
  let sell_price := mid_price + mid_price * sell.value powf
  p_buy * p_sell * (sell_price - buy_price) -
    (p_buy * (1 - p_sell) + p_sell * (1 - p_buy)) * volatility * alpha

/-- `maximize_expected_value`: the two nested `for` loops over the buy and
sell `BTreeMap`s (modelled as lists in iteration order), keeping the first
pair whose EV strictly exceeds the running best.  `best_expected_value`
starts at `f64::NEG_INFINITY` with `best_pair = None`; this is modelled by
an accumulator `Option ((pair) × ℚ)` starting at `none`, whose first step
always accepts (every rational exceeds `-∞`). -/
def maximize_expected_value (powf : ℚ → ℚ → ℚ) (mid_price volatility alpha : ℚ)
    (buy sell : List (FloatingExp × ℚ × BayesProb)) :
    Option (FloatingExp × FloatingExp) :=
  (buy.foldl (fun acc b =>
    sell.foldl (fun acc s =>
      let ev := expected_value powf mid_price volatility alpha b.1 s.1 b.2 s.2
      match acc with
      | none => some ((b.1, s.1), ev)
      | some pb => if pb.2 < ev then some ((b.1, s.1), ev) else some pb) acc)
    none).map Prod.fst

/-- The cross product of the two level maps in iteration order (outer loop
over `buy`, inner loop over `sell`). -/
def crossPairs (buy sell : List (FloatingExp × ℚ × BayesProb)) :
    List ((FloatingExp × ℚ × BayesProb) × (FloatingExp × ℚ × BayesProb)) :=
  buy.flatMap (fun b => sell.map (fun s => (b, s)))

/-- The EV of one cross-product entry. -/
def pairEV (powf : ℚ → ℚ → ℚ) (mid_price volatility alpha : ℚ)
    (p : (FloatingExp × ℚ × BayesProb) × (FloatingExp × ℚ × BayesProb)) : ℚ :=
  expected_value powf mid_price volatility alpha p.1.1 p.2.1 p.1.2 p.2.2

/-- The accumulator step shared by the nested loops of
`maximize_expected_value`: keep the stored candidate unless the new
element's score strictly exceeds the stored best (`ev >
best_expected_value`); an empty accumulator (the `NEG_INFINITY` start)
always accepts. -/
def bestStep {α β : Type} (g : α → β) (f : α → ℚ) (acc : Option (β × ℚ)) (x : α) :
    Option (β × ℚ) :=
  match acc with
  | none => some (g x, f x)
  | some pb => if pb.2 < f x then some (g x, f x) else some pb

/-- The projection stored by `maximize_expected_value`: the two level keys. -/
def pairKeys (p : (FloatingExp × ℚ × BayesProb) × (FloatingExp × ℚ × BayesProb)) :
    FloatingExp × FloatingExp :=
  (p.1.1, p.2.1)

/-! ### gmo_bot.rs: order lifetime and volatility -/

/-- Rust `u64::clamp(min, max)` (caller guarantees `min ≤ max`). -/
def u64Clamp (x lo hi : ℕ) : ℕ :=
  if x < lo then lo else if hi < x then hi else x

/-- `calculate_t_optimal`: `T_opt = clamp((spread_pct / sigma_1s)² * 1000 ms,
min_ms, max_ms)`, with `max_ms` when volatility or spread is nonpositive.
The `as u64` cast truncates toward zero (and saturates below at 0), i.e.
`Nat.floor` on a nonnegative rational. -/
def calculate_t_optimal (spread_pct sigma_1s : ℚ) (min_ms max_ms : ℕ) : ℕ :=
  if sigma_1s ≤ 0 ∨ spread_pct ≤ 0 then max_ms
  else
    let ratio := spread_pct / sigma_1s
    let t_secs := ratio * ratio
    let t_ms := ⌊t_secs * 1000⌋₊
    u64Clamp t_ms min_ms max_ms

/-- `MIN_VOLATILITY_BPS = 0.00005` (0.5 bps). -/
def MIN_VOLATILITY_BPS : ℚ := 5 / 100000

/-- RiskMetrics `LAMBDA = 0.94`. -/
def LAMBDA : ℚ := 94 / 100

/-- `Vec::windows(2)` as a list of consecutive pairs. -/
def windows2 {α : Type} : List α → List (α × α)
  | a :: b :: rest => (a, b) :: windows2 (b :: rest)
  | _ => []

/-- `calculate_volatility`: EWMA volatility of log-returns of the execution
prices, floored at `mean_price * MIN_VOLATILITY_BPS`.  Executions are
`(price: u64, size: f64, timestamp: i64)` triples; `lnq`/`sqrtq` model the
transcendental `f64::ln` and `f64::sqrt`. -/
def calculate_volatility (lnq sqrtq : ℚ → ℚ)
    (executions : List (ℕ × ℚ × ℤ)) : ℚ :=
  if executions.length < 2 then
    let mean_price := ((executions.head?.map (fun e => (e.1 : ℚ))).getD 6500000)
    mean_price * MIN_VOLATILITY_BPS
  else
    let prices : List ℚ := executions.map (fun e => (e.1 : ℚ))
    let mean_price := prices.sum / (prices.length : ℚ)
    let log_returns : List ℚ :=
      ((windows2 prices).filter (fun w => decide (0 < w.1) && decide (0 < w.2))).map
        (fun w => lnq (w.2 / w.1))
    if log_returns.isEmpty then
      mean_price * MIN_VOLATILITY_BPS
    else
      let seed_n := min log_returns.length 10
      let seed := ((log_returns.take seed_n).map (fun r => r ^ 2)).sum / (seed_n : ℚ)
      let ewma_var := (log_returns.drop seed_n).foldl
        (fun v r => LAMBDA * v + (1 - LAMBDA) * r ^ 2) seed
      let stddev := sqrtq ewma_var
      let volatility := mean_price * stddev
      max volatility (mean_price * MIN_VOLATILITY_BPS)

/-- The `mean_price` used inside `calculate_volatility` in each branch:
first price (or the hardcoded fallback `6_500_000`) when fewer than 2
executions, else the average price. -/
def vol_mean_price (executions : List (ℕ × ℚ × ℤ)) : ℚ :=
  if executions.length < 2 then
    ((executions.head?.map (fun e => (e.1 : ℚ))).getD 6500000)
  else
    (executions.map (fun e => (e.1 : ℚ))).sum / (executions.length : ℚ)

/-! ### gmo_bot.rs: order sizing -/

/-- `calculate_order_sizes`: per-side new-order size.  `powf` models
`f64::powf` in `position.side_size.powf(position_ratio)`. -/
def calculate_order_sizes (powf : ℚ → ℚ → ℚ) (position : Position)
    (max_position_size min_lot max_lot position_ratio : ℚ) : ℚ × ℚ :=
  let remaining_long := max (max_position_size - position.long_size) 0
  let remaining_short := max (max_position_size - position.short_size) 0
  let buy_size :=
    if remaining_long < min_lot then 0
    else
      min (max (round_size
        (max_lot * (1 - powf position.long_size position_ratio / max_position_size)))
        min_lot) remaining_long
  let sell_size :=
    if remaining_short < min_lot then 0
    else
      min (max (round_size
        (max_lot * (1 - powf position.short_size position_ratio / max_position_size)))
        min_lot) remaining_short
  (buy_size, sell_size)

/-! ### gmo_bot.rs: ghost-position protection -/

def GHOST_POSITION_COOLDOWN_SECS : ℕ := 60

/-- Shared state touched by ghost protection: the position ledger plus the
`GhostSuppression` cell (`Option<Instant>`). -/
structure GhostState where
  position : Position
  ghost_suppression : Option ℕ
  deriving Repr, DecidableEq

/-- `reset_position`: zero all four ledger fields. -/
def reset_position (p : Position) : Position :=
  { p with long_size := 0, short_size := 0, long_open_price := 0, short_open_price := 0 }

/-- `activate_ghost_protection`: reset the position and arm the suppression
window `[now, now + cooldown_secs)`; returns the new state and the `until`
instant. -/
def activate_ghost_protection (st : GhostState) (now cooldown_secs : ℕ) :
    GhostState × ℕ :=
  let untl := now + cooldown_secs
  ({ position := reset_position st.position, ghost_suppression := some untl }, untl)

/-- One entry of the GMO position-poll response (`side`, `size`, `price`). -/
structure PositionItem where
  side : String
  size : ℚ
  price : ℚ
  deriving Repr, DecidableEq

/-- The accumulation loop of `get_position`: gross long/short totals and
price·size sums. -/
def accumulate_response (response : List PositionItem) : ℚ × ℚ × ℚ × ℚ :=
  response.foldl (fun acc x =>
    match acc with
    | (long_total, short_total, long_price_sum, short_price_sum) =>
      if x.side = "BUY" then
        (long_total + x.size, short_total, long_price_sum + x.price * x.size, short_price_sum)
      else
        (long_total, short_total + x.size, long_price_sum, short_price_sum + x.price * x.size))
    (0, 0, 0, 0)

/-- The ledger write at the bottom of the `get_position` loop body. -/
def get_position_write (st : GhostState) (response : List PositionItem) : GhostState :=
  match accumulate_response response with
  | (long_total, short_total, long_price_sum, short_price_sum) =>
    { st with position :=
      { long_size := round_size long_total
        short_size := round_size short_total
        long_open_price := if 0 < long_total then long_price_sum / long_total else 0
        short_open_price := if 0 < short_total then short_price_sum / short_total else 0 } }

/-- One successful iteration of the `get_position` polling loop, given the
decoded response list and the current instant.  During an active suppression
window an empty response is skipped (`continue`); an expired window is
cleared; otherwise the response is written to the ledger. -/
def get_position_step (st : GhostState) (now : ℕ) (response : List PositionItem) :
    GhostState :=
  match st.ghost_suppression with
  | some untl =>
    if now < untl ∧ response = [] then st
    else
      let st1 := if untl ≤ now then { st with ghost_suppression := none } else st
      get_position_write st1 response
  | none => get_position_write st response

/-! ### gmo_bot.rs / api/gmo/api.rs: stale-order cancellation -/

/-- `ApiErrorMessage` (only the code matters to the bot logic). -/
structure ApiErrorMessage where
  message_code : String
  message_string : String
  deriving Repr, DecidableEq

/-- `ApiResponseError`; the non-`ApiError` variants carry opaque payloads
that the cancellation logic never inspects, modelled as `String`s. -/
inductive ApiResponseError where
  | Credential (e : String)
  | Reqwest (e : String)
  | StatusCode (s : ℕ)
  | UrlParse (e : String)
  | Deserialize (e : String)
  | ApiError (msgs : List ApiErrorMessage)
  deriving Repr, DecidableEq

/-- The trade-log events emitted by `cancel_child_order` (fields as passed
at its call sites). -/
inductive TradeEvent where
  | OrderCancelled (timestamp order_id : String)
  | OrderFilled (timestamp order_id side : String) (price : ℕ) (size : ℚ)
      (order_age_ms : ℕ) (is_close : Bool) (mid_price : ℕ) (t_optimal_ms : ℕ)
      (sigma_1s spread_pct : ℚ)
  deriving Repr, DecidableEq

/-- The `match` on the result of `gmo::cancel_child_order::cancel_order` in
the canceller loop: on `Ok` remove the order and log a cancel; on an
`ApiError` containing code `ERR-5122` log a fill and remove the order; on
any other error leave the map unchanged (retry next cycle).  Returns the
new open-orders map and the events logged. -/
def process_cancel_result (order_list : List (String × OrderInfo))
    (order_id : String) (info : OrderInfo) (timestamp : String) (order_age : ℕ)
    (result : Except ApiResponseError Unit) :
    List (String × OrderInfo) × List TradeEvent :=
  match result with
  | .ok _ =>
    (order_list.filter (fun p => p.1 != order_id),
     [TradeEvent.OrderCancelled timestamp order_id])
  | .error (ApiResponseError.ApiError msgs) =>
    if msgs.any (fun m => m.message_code == "ERR-5122") then
      (order_list.filter (fun p => p.1 != order_id),
       [TradeEvent.OrderFilled timestamp order_id info.side.toStr info.price info.size
          order_age info.is_close info.mid_price info.t_optimal_ms
          info.sigma_1s info.spread_pct])
    else
      (order_list, [])
  | .error _ => (order_list, [])

/-! ## Theorems -/

/-- C3: for every mid price, volatility, alpha, buy/sell level and fill
posteriors, `expected_value` equals the spec's reference definition: with
`buy_price = mid − mid*buy.value()` and `sell_price = mid + mid*sell.value()`,
`EV = P_buy*P_sell*(sell_price−buy_price) − [P_buy*(1−P_sell) +
P_sell*(1−P_buy)] * volatility * alpha`. -/
theorem expected_value_matches_spec (powf : ℚ → ℚ → ℚ)
    (mid_price volatility alpha : ℚ) (buy sell : FloatingExp)
    (buy_data sell_data : ℚ × BayesProb) :
    expected_value powf mid_price volatility alpha buy sell buy_data sell_data =
      expected_value_spec_formula powf mid_price volatility alpha buy sell
        buy_data sell_data := rfl

/-- C8: after `TimeQueue::retain`, the surviving buffer is a sublist of the
old one (entries are only removed, never reordered or modified), and every
surviving entry's age `now - arrival` is at most the window duration. -/
theorem timequeue_retain_invariant {T : Type} (q : TimeQueue T) (now : ℕ) :
    (q.retain now).data.Sublist q.data ∧
      ∀ e ∈ (q.retain now).data, now - e.1 ≤ q.duration := by
  constructor
  · exact List.filter_sublist q.data
  · intro e he
    have h := List.of_mem_filter he
    simpa using h

/-- Witness for C8 on a concrete queue: the retained buffer is a sublist and
the concrete surviving entry `(10, 4)` has age `0 ≤ 5`. -/
theorem timequeue_retain_invariant_witness :
    ((TimeQueue.mk 5 [(0, 3), (10, 4)] : TimeQueue ℕ).retain 10).data.Sublist
        (TimeQueue.mk 5 [(0, 3), (10, 4)] : TimeQueue ℕ).data ∧
      10 - ((10, 4) : ℕ × ℕ).1 ≤ (TimeQueue.mk 5 [(0, 3), (10, 4)] : TimeQueue ℕ).duration :=
  ⟨(timequeue_retain_invariant (TimeQueue.mk 5 [(0, 3), (10, 4)]) 10).1,
   (timequeue_retain_invariant (TimeQueue.mk 5 [(0, 3), (10, 4)]) 10).2 (10, 4) (by decide)⟩

/-- `u64Clamp` lands inside `[lo, hi]` whenever `lo ≤ hi`. -/
theorem u64Clamp_mem (x lo hi : ℕ) (h : lo ≤ hi) :
    lo ≤ u64Clamp x lo hi ∧ u64Clamp x lo hi ≤ hi := by
  unfold u64Clamp; split_ifs <;> omega

/-- `u64Clamp` is monotone in its argument whenever `lo ≤ hi`. -/
theorem u64Clamp_mono (x₁ x₂ lo hi : ℕ) (h : lo ≤ hi) (hx : x₁ ≤ x₂) :
    u64Clamp x₁ lo hi ≤ u64Clamp x₂ lo hi := by
  unfold u64Clamp; split_ifs <;> omega

/-- C6: `calculate_t_optimal` (1) equals
`clamp(⌊(spread/sigma)² · 1000⌋, min_ms, max_ms)` for positive inputs,
(2) returns `max_ms` when sigma (or spread) is zero, (3) always lands in
`[min_ms, max_ms]` when `min_ms ≤ max_ms`, and (4) is monotonically
non-decreasing in the ratio `spread/sigma`. -/
theorem t_optimal_spec :
    (∀ (s σ : ℚ) (minm maxm : ℕ), 0 < s → 0 < σ →
      calculate_t_optimal s σ minm maxm =
        u64Clamp ⌊(s / σ) * (s / σ) * 1000⌋₊ minm maxm) ∧
    (∀ (s : ℚ) (minm maxm : ℕ), calculate_t_optimal s 0 minm maxm = maxm ∧
      calculate_t_optimal 0 s minm maxm = maxm) ∧
    (∀ (s σ : ℚ) (minm maxm : ℕ), minm ≤ maxm →
      minm ≤ calculate_t_optimal s σ minm maxm ∧
        calculate_t_optimal s σ minm maxm ≤ maxm) ∧
    (∀ (s₁ σ₁ s₂ σ₂ : ℚ) (minm maxm : ℕ), minm ≤ maxm →
      0 < s₁ → 0 < σ₁ → 0 < s₂ → 0 < σ₂ → s₁ / σ₁ ≤ s₂ / σ₂ →
      calculate_t_optimal s₁ σ₁ minm maxm ≤ calculate_t_optimal s₂ σ₂ minm maxm) := by
  refine ⟨?_, ?_, ?_, ?_⟩
  · intro s σ minm maxm hs hσ
    unfold calculate_t_optimal
    rw [if_neg]
    push_neg
    exact ⟨hσ, hs⟩
  · intro s minm maxm
    constructor
    · unfold calculate_t_optimal
      rw [if_pos (Or.inl le_rfl)]
    · unfold calculate_t_optimal
      rw [if_pos (Or.inr le_rfl)]
  · intro s σ minm maxm h
    unfold calculate_t_optimal
    split_ifs with hc
    · exact ⟨h, le_rfl⟩
    · exact u64Clamp_mem _ _ _ h
  · intro s₁ σ₁ s₂ σ₂ minm maxm h hs₁ hσ₁ hs₂ hσ₂ hr
    unfold calculate_t_optimal
    rw [if_neg (by push_neg; exact ⟨hσ₁, hs₁⟩), if_neg (by push_neg; exact ⟨hσ₂, hs₂⟩)]
    apply u64Clamp_mono _ _ _ _ h
    apply Nat.floor_mono
    have h₁ : 0 < s₁ / σ₁ := div_pos hs₁ hσ₁
    nlinarith [h₁, hr]

/-- Witness for C6 at concrete inputs: each conjunct of `t_optimal_spec`
instantiated (spread 2, sigma 1, bounds 100 and 5000). -/
theorem t_optimal_spec_witness :
    calculate_t_optimal 2 1 100 5000 =
        u64Clamp ⌊((2 : ℚ) / 1) * (2 / 1) * 1000⌋₊ 100 5000 ∧
      calculate_t_optimal 2 0 100 5000 = 5000 ∧
      100 ≤ calculate_t_optimal 2 1 100 5000 ∧
      calculate_t_optimal 1 1 100 5000 ≤ calculate_t_optimal 2 1 100 5000 :=
  ⟨t_optimal_spec.1 2 1 100 5000 (by norm_num) (by norm_num),
   (t_optimal_spec.2.1 2 100 5000).1,
   (t_optimal_spec.2.2.1 2 1 100 5000 (by norm_num)).1,
   t_optimal_spec.2.2.2 1 1 2 1 100 5000 (by norm_num) (by norm_num) (by norm_num)
     (by norm_num) (by norm_num) (by norm_num)⟩

/-- The accumulation fold of `BayesProb::update` computes the componentwise
sums. -/
theorem foldl_add_pair (l : List (ℕ × ℕ)) (a b : ℕ) :
    l.foldl (fun acc p => (acc.1 + p.1, acc.2 + p.2)) (a, b)
      = (a + (l.map Prod.fst).sum, b + (l.map Prod.snd).sum) := by
  induction l generalizing a b with
  | nil => simp
  | cons x xs ih => simp [ih, Nat.add_assoc]

/-- When every observation has `successes ≤ trials`, the total successes are
at most the total trials. -/
theorem sum_snd_le_sum_fst (l : List (ℕ × ℕ)) (h : ∀ p ∈ l, p.2 ≤ p.1) :
    (l.map Prod.snd).sum ≤ (l.map Prod.fst).sum := by
  induction l with
  | nil => simp
  | cons x xs ih =>
    simp only [List.map_cons, List.sum_cons]
    have hx := h x (List.mem_cons_self x xs)
    have hxs := ih (fun p hp => h p (List.mem_cons_of_mem _ hp))
    omega

/-- When every observation has `successes ≤ trials`, subtracting the total
successes from the total trials equals the sum of per-observation failure
counts. -/
theorem sum_fst_sub_sum_snd (l : List (ℕ × ℕ)) (h : ∀ p ∈ l, p.2 ≤ p.1) :
    (l.map Prod.fst).sum - (l.map Prod.snd).sum
      = (l.map (fun p => p.1 - p.2)).sum := by
  induction l with
  | nil => simp
  | cons x xs ih =>
    simp only [List.map_cons, List.sum_cons]
    have hx := h x (List.mem_cons_self x xs)
    have hxs := sum_snd_le_sum_fst xs (fun p hp => h p (List.mem_cons_of_mem _ hp))
    have hih := ih (fun p hp => h p (List.mem_cons_of_mem _ hp))
    omega

/-- Closed form of `BayesProb.update` under the no-underflow precondition:
it succeeds, the window is the retained-then-pushed buffer, and the
posterior is the prior plus the windowed success/failure sums. -/
theorem update_eq (bp : BayesProb) (now n r : ℕ)
    (h : ∀ p ∈ ((bp.time_data.retain now).push now (n, r)).get_data, p.2 ≤ p.1) :
    BayesProb.update bp now n r = some { bp with
      time_data := (bp.time_data.retain now).push now (n, r)
      distribution := BetaDistribution.new
        (bp.prior.a +
          ((((bp.time_data.retain now).push now (n, r)).get_data).map Prod.snd).sum)
        (bp.prior.b +
          ((((bp.time_data.retain now).push now (n, r)).get_data).map
            (fun p => p.1 - p.2)).sum) } := by
  unfold BayesProb.update
  simp only [foldl_add_pair, Nat.zero_add]
  rw [if_pos (sum_snd_le_sum_fst _ h), sum_fst_sub_sum_snd _ h]

/-- C4: after `update(n, r)` (with `r ≤ n` for every observation inside the
window), the posterior equals `(prior.a + Σ successes in window, prior.b +
Σ (trials − successes) in window)`, where the window is the retained buffer
after the push — observations that aged out contribute nothing.  Stated for
an arbitrary estimator state, hence for every point of every `update`
sequence. -/
theorem bayes_update_posterior_window (bp : BayesProb) (now n r : ℕ)
    (h : ∀ p ∈ ((bp.time_data.retain now).push now (n, r)).get_data, p.2 ≤ p.1) :
    ∃ bp', BayesProb.update bp now n r = some bp' ∧
      bp'.time_data = (bp.time_data.retain now).push now (n, r) ∧
      bp'.prior = bp.prior ∧
      bp'.distribution.a = bp.prior.a + ((bp'.time_data.get_data).map Prod.snd).sum ∧
      bp'.distribution.b = bp.prior.b +
        ((bp'.time_data.get_data).map (fun p => p.1 - p.2)).sum :=
  ⟨_, update_eq bp now n r h, rfl, rfl, rfl, rfl⟩

/-- Witness for C4: a concrete estimator whose oldest observation ages out
of the window at `now = 100`. -/
theorem bayes_update_posterior_window_witness :
    (∀ p ∈ (((BayesProb.mk ⟨1, 1⟩ ⟨2, 3⟩ ⟨10, [(0, (5, 2)), (95, (3, 1))]⟩).time_data.retain
        100).push 100 (1, 1)).get_data, p.2 ≤ p.1) ∧
    ∃ bp', BayesProb.update (BayesProb.mk ⟨1, 1⟩ ⟨2, 3⟩ ⟨10, [(0, (5, 2)), (95, (3, 1))]⟩)
        100 1 1 = some bp' ∧
      bp'.time_data = ((BayesProb.mk ⟨1, 1⟩ ⟨2, 3⟩
        ⟨10, [(0, (5, 2)), (95, (3, 1))]⟩).time_data.retain 100).push 100 (1, 1) ∧
      bp'.prior = (BayesProb.mk ⟨1, 1⟩ ⟨2, 3⟩ ⟨10, [(0, (5, 2)), (95, (3, 1))]⟩).prior ∧
      bp'.distribution.a = 2 + ((bp'.time_data.get_data).map Prod.snd).sum ∧
      bp'.distribution.b = 3 +
        ((bp'.time_data.get_data).map (fun p => p.1 - p.2)).sum :=
  ⟨by decide,
   bayes_update_posterior_window
     (BayesProb.mk ⟨1, 1⟩ ⟨2, 3⟩ ⟨10, [(0, (5, 2)), (95, (3, 1))]⟩) 100 1 1 (by decide)⟩

/-- C10: `BayesProb.update` is underflow-safe exactly under the precondition
`r ≤ n` for every windowed observation: under it the `u64` subtraction
`total_n - total_r` cannot underflow and `update` succeeds; with `r > n`
(here `update(1, 2)` on a fresh estimator) the subtraction underflows and
the embedding's error branch (`none`) is reached. -/
theorem bayes_update_underflow :
    (∀ (bp : BayesProb) (now n r : ℕ),
      (∀ p ∈ ((bp.time_data.retain now).push now (n, r)).get_data, p.2 ≤ p.1) →
      (BayesProb.update bp now n r).isSome) ∧
    BayesProb.update (BayesProb.new (BetaDistribution.new 1 1) 1000) 0 1 2 = none := by
  constructor
  · intro bp now n r h
    rw [update_eq bp now n r h]
    rfl
  · rfl

/-- Witness for C10: the no-underflow half of `bayes_update_underflow`
instantiated at a concrete valid estimator. -/
theorem bayes_update_underflow_witness :
    (∀ p ∈ (((BayesProb.new (BetaDistribution.new 1 1) 1000).time_data.retain 7).push 7
        (4, 2)).get_data, p.2 ≤ p.1) ∧
    (BayesProb.update (BayesProb.new (BetaDistribution.new 1 1) 1000) 7 4 2).isSome :=
  ⟨by decide,
   bayes_update_underflow.1 (BayesProb.new (BetaDistribution.new 1 1) 1000) 7 4 2 (by decide)⟩

/-- C5 counterexample: the claim "otherwise, whenever any room remains below
`max_position_size`, a size that is at least the configured min lot" fails:
with `max_position_size = 20`, `long_size = 19` (room remains: `19 < 20`)
and `min_lot = 2`, the remaining capacity `1` is below the min lot, so the
code returns exactly `0`, not a size `≥ min_lot`. -/
theorem order_sizes_claim_counterexample :
    (⟨19, 0, 0, 0⟩ : Position).long_size < 20 ∧ (0 : ℚ) < 2 ∧
      (calculate_order_sizes (fun a _ => a) ⟨19, 0, 0, 0⟩ 20 2 1 1).1 = 0 ∧
      ¬ (2 : ℚ) ≤ (calculate_order_sizes (fun a _ => a) ⟨19, 0, 0, 0⟩ 20 2 1 1).1 := by
  refine ⟨by norm_num, by norm_num, ?_, ?_⟩ <;>
    simp [calculate_order_sizes, max_def] <;> norm_num

/-- C5 (amended): for positive `min_lot`, each side's size is exactly `0`
when that side's position size is at least `max_position_size`, and more
generally whenever the remaining capacity (floored at 0) is below
`min_lot`; whenever the remaining capacity is at least `min_lot`, the size
lies in `[min_lot, max_position_size − side_size]`. -/
theorem order_sizes_amended (powf : ℚ → ℚ → ℚ) (position : Position)
    (max_position_size min_lot max_lot position_ratio : ℚ) (hmin : 0 < min_lot) :
    (max_position_size ≤ position.long_size →
      (calculate_order_sizes powf position max_position_size min_lot max_lot
        position_ratio).1 = 0) ∧
    (max (max_position_size - position.long_size) 0 < min_lot →
      (calculate_order_sizes powf position max_position_size min_lot max_lot
        position_ratio).1 = 0) ∧
    (min_lot ≤ max_position_size - position.long_size →
      min_lot ≤ (calculate_order_sizes powf position max_position_size min_lot max_lot
          position_ratio).1 ∧
        (calculate_order_sizes powf position max_position_size min_lot max_lot
          position_ratio).1 ≤ max_position_size - position.long_size) ∧
    (max_position_size ≤ position.short_size →
      (calculate_order_sizes powf position max_position_size min_lot max_lot
        position_ratio).2 = 0) ∧
    (max (max_position_size - position.short_size) 0 < min_lot →
      (calculate_order_sizes powf position max_position_size min_lot max_lot
        position_ratio).2 = 0) ∧
    (min_lot ≤ max_position_size - position.short_size →
      min_lot ≤ (calculate_order_sizes powf position max_position_size min_lot max_lot
          position_ratio).2 ∧
        (calculate_order_sizes powf position max_position_size min_lot max_lot
          position_ratio).2 ≤ max_position_size - position.short_size) := by
  simp only [calculate_order_sizes]
  refine ⟨?_, ?_, ?_, ?_, ?_, ?_⟩
  · intro h
    rw [if_pos (by rw [max_eq_right (by linarith)]; exact hmin)]
  · intro h
    rw [if_pos h]
  · intro h
    have h0 : (0 : ℚ) ≤ max_position_size - position.long_size := le_trans hmin.le h
    rw [max_eq_left h0, if_neg (not_lt.mpr h)]
    exact ⟨le_min (le_max_right _ _) h, min_le_right _ _⟩
  · intro h
    rw [if_pos (by rw [max_eq_right (by linarith)]; exact hmin)]
  · intro h
    rw [if_pos h]
  · intro h
    have h0 : (0 : ℚ) ≤ max_position_size - position.short_size := le_trans hmin.le h
    rw [max_eq_left h0, if_neg (not_lt.mpr h)]
    exact ⟨le_min (le_max_right _ _) h, min_le_right _ _⟩

/-- Witness for the amended C5: with `max_position_size = 10`,
`long_size = 12` the buy size is `0`; with `short_size = 3` and
`min_lot = 2 ≤ 10 − 3` the sell size lies in `[2, 7]`. -/
theorem order_sizes_amended_witness :
    (0 : ℚ) < 2 ∧ (10 : ℚ) ≤ (⟨12, 3, 0, 0⟩ : Position).long_size ∧
      (2 : ℚ) ≤ 10 - (⟨12, 3, 0, 0⟩ : Position).short_size ∧
      (calculate_order_sizes (fun a _ => a) ⟨12, 3, 0, 0⟩ 10 2 1 1).1 = 0 ∧
      2 ≤ (calculate_order_sizes (fun a _ => a) ⟨12, 3, 0, 0⟩ 10 2 1 1).2 ∧
      (calculate_order_sizes (fun a _ => a) ⟨12, 3, 0, 0⟩ 10 2 1 1).2 ≤
        10 - (⟨12, 3, 0, 0⟩ : Position).short_size :=
  ⟨by norm_num, by norm_num, by norm_num,
   (order_sizes_amended (fun a _ => a) ⟨12, 3, 0, 0⟩ 10 2 1 1 (by norm_num)).1
     (by norm_num),
   ((order_sizes_amended (fun a _ => a) ⟨12, 3, 0, 0⟩ 10 2 1 1 (by norm_num)).2.2.2.2.2
     (by norm_num)).1,
   ((order_sizes_amended (fun a _ => a) ⟨12, 3, 0, 0⟩ 10 2 1 1 (by norm_num)).2.2.2.2.2
     (by norm_num)).2⟩

/-- `get_position_write` only rewrites the `position` field; the
suppression cell is untouched. -/
theorem get_position_write_suppression (st : GhostState) (response : List PositionItem) :
    (get_position_write st response).ghost_suppression = st.ghost_suppression := by
  unfold get_position_write
  rcases accumulate_response response with ⟨a, b, c, d⟩
  rfl

/-- The position written by `get_position_write` depends only on the
response, not on the previous state. -/
theorem get_position_write_position (s₁ s₂ : GhostState) (response : List PositionItem) :
    (get_position_write s₁ response).position = (get_position_write s₂ response).position := by
  unfold get_position_write
  rcases accumulate_response response with ⟨a, b, c, d⟩
  rfl

/-- C1 counterexample: starting from the state produced by
`activate_ghost_protection` (cooldown 60 armed at instant 0), a non-empty
poll response arriving at instant `30 < 60` is accepted, but the
suppression window is NOT cleared (`ghost_suppression` is still
`some 60`), contradicting the claim that a non-empty poll response
"immediately clears the cooldown". -/
theorem ghost_protection_claim_counterexample :
    (activate_ghost_protection ⟨⟨1, 2, 3, 4⟩, none⟩ 0 60).1.ghost_suppression = some 60 ∧
      (30 : ℕ) < 60 ∧ ([⟨"BUY", 1, 100⟩] : List PositionItem) ≠ [] ∧
      (get_position_step (activate_ghost_protection ⟨⟨1, 2, 3, 4⟩, none⟩ 0 60).1 30
          [⟨"BUY", 1, 100⟩]).ghost_suppression = some 60 := by
  refine ⟨rfl, by norm_num, by simp, ?_⟩
  simp [activate_ghost_protection, reset_position, get_position_step,
    get_position_write_suppression]

/-- C1 (amended): after `activate_ghost_protection` the ledger is zero and
the suppression window `some (now + cooldown)` is armed; every empty poll
response arriving strictly before the window's end leaves the state (hence
the zero ledger) unchanged; a non-empty poll response is accepted
immediately (the ledger is rewritten from the response); but a non-empty
response inside the window leaves the suppression window armed rather than
clearing it (it only expires by timeout). -/
theorem ghost_protection_amended (st : GhostState) (now cooldown : ℕ) :
    (activate_ghost_protection st now cooldown).1.position = ⟨0, 0, 0, 0⟩ ∧
    (activate_ghost_protection st now cooldown).1.ghost_suppression =
      some (now + cooldown) ∧
    (activate_ghost_protection st now cooldown).2 = now + cooldown ∧
    (∀ t, t < now + cooldown →
      get_position_step (activate_ghost_protection st now cooldown).1 t [] =
        (activate_ghost_protection st now cooldown).1) ∧
    (∀ t (response : List PositionItem), response ≠ [] →
      (get_position_step (activate_ghost_protection st now cooldown).1 t
          response).position =
        (get_position_write (activate_ghost_protection st now cooldown).1
          response).position) ∧
    (∀ t (response : List PositionItem), t < now + cooldown → response ≠ [] →
      (get_position_step (activate_ghost_protection st now cooldown).1 t
          response).ghost_suppression = some (now + cooldown)) := by
  refine ⟨rfl, rfl, rfl, ?_, ?_, ?_⟩
  · intro t ht
    simp [activate_ghost_protection, get_position_step, ht]
  · intro t response hresp
    simp only [activate_ghost_protection, get_position_step]
    rw [if_neg (by simp [hresp])]
    split_ifs with hu
    · exact get_position_write_position _ _ _
    · exact get_position_write_position _ _ _
  · intro t response ht hresp
    simp only [activate_ghost_protection, get_position_step]
    rw [if_neg (by simp [hresp]), if_neg (by omega)]
    rw [get_position_write_suppression]

/-- Witness for the amended C1: cooldown 60 armed at instant 0, empty poll
at instant 10 skipped, non-empty poll at instant 30 accepted with the
window still armed. -/
theorem ghost_protection_amended_witness :
    (activate_ghost_protection ⟨⟨1, 2, 3, 4⟩, none⟩ 0 60).1.position = ⟨0, 0, 0, 0⟩ ∧
      (10 : ℕ) < 0 + 60 ∧
      get_position_step (activate_ghost_protection ⟨⟨1, 2, 3, 4⟩, none⟩ 0 60).1 10 [] =
        (activate_ghost_protection ⟨⟨1, 2, 3, 4⟩, none⟩ 0 60).1 ∧
      ([⟨"BUY", 1, 100⟩] : List PositionItem) ≠ [] ∧
      (get_position_step (activate_ghost_protection ⟨⟨1, 2, 3, 4⟩, none⟩ 0 60).1 30
          [⟨"BUY", 1, 100⟩]).position =
        (get_position_write (activate_ghost_protection ⟨⟨1, 2, 3, 4⟩, none⟩ 0 60).1
          [⟨"BUY", 1, 100⟩]).position :=
  ⟨(ghost_protection_amended ⟨⟨1, 2, 3, 4⟩, none⟩ 0 60).1, by norm_num,
   (ghost_protection_amended ⟨⟨1, 2, 3, 4⟩, none⟩ 0 60).2.2.2.1 10 (by norm_num),
   by simp,
   (ghost_protection_amended ⟨⟨1, 2, 3, 4⟩, none⟩ 0 60).2.2.2.2.1 30
     [⟨"BUY", 1, 100⟩] (by simp)⟩

/-- C9: in the stale-order canceller, a confirmed cancel removes the order
from the open-orders map (logging a cancel event); an API error carrying
code `ERR-5122` ("already in a final state") is treated as a fill — a fill
event is logged and the order is removed, not treated as an error; an
`ApiError` without `ERR-5122`, or any other error, leaves the map
unchanged, so the order is retried on the next cycle; and the removal
really eliminates every entry with that order id. -/
theorem cancel_result_handling (order_list : List (String × OrderInfo))
    (order_id : String) (info : OrderInfo) (timestamp : String) (order_age : ℕ) :
    (process_cancel_result order_list order_id info timestamp order_age (.ok ()) =
      (order_list.filter (fun p => p.1 != order_id),
       [TradeEvent.OrderCancelled timestamp order_id])) ∧
    (∀ msgs, (∃ m ∈ msgs, m.message_code = "ERR-5122") →
      process_cancel_result order_list order_id info timestamp order_age
          (.error (.ApiError msgs)) =
        (order_list.filter (fun p => p.1 != order_id),
         [TradeEvent.OrderFilled timestamp order_id info.side.toStr info.price info.size
            order_age info.is_close info.mid_price info.t_optimal_ms info.sigma_1s
            info.spread_pct])) ∧
    (∀ msgs, (∀ m ∈ msgs, m.message_code ≠ "ERR-5122") →
      process_cancel_result order_list order_id info timestamp order_age
          (.error (.ApiError msgs)) = (order_list, [])) ∧
    (∀ e : ApiResponseError, (∀ msgs, e ≠ .ApiError msgs) →
      process_cancel_result order_list order_id info timestamp order_age (.error e) =
        (order_list, [])) ∧
    (∀ p ∈ order_list.filter (fun p => p.1 != order_id), p.1 ≠ order_id) := by
  refine ⟨rfl, ?_, ?_, ?_, ?_⟩
  · intro msgs hmsgs
    unfold process_cancel_result
    dsimp only
    rw [if_pos]
    rw [List.any_eq_true]
    obtain ⟨m, hm, hcode⟩ := hmsgs
    exact ⟨m, hm, by simp [hcode]⟩
  · intro msgs hmsgs
    unfold process_cancel_result
    dsimp only
    rw [if_neg]
    simp only [List.any_eq_true, not_exists]
    intro m
    simp only [not_and]
    intro hm
    simpa using hmsgs m hm
  · intro e he
    cases e with
    | ApiError msgs => exact absurd rfl (he msgs)
    | Credential _ => rfl
    | Reqwest _ => rfl
    | StatusCode _ => rfl
    | UrlParse _ => rfl
    | Deserialize _ => rfl
  · intro p hp
    have := List.of_mem_filter hp
    simpa using this

/-- Witness for C9: a concrete two-order map; an `ERR-5122` error removes
order `"a"` and logs a fill. -/
theorem cancel_result_handling_witness :
    (∃ m ∈ [ApiErrorMessage.mk "ERR-5122" "already final"], m.message_code = "ERR-5122") ∧
    process_cancel_result
        [("a", OrderInfo.mk 100 1 .BUY 0 false 100 5000 1 1 0 1 1 1),
         ("b", OrderInfo.mk 200 1 .SELL 0 false 100 5000 1 1 0 1 1 1)]
        "a" (OrderInfo.mk 100 1 .BUY 0 false 100 5000 1 1 0 1 1 1) "ts" 7000
        (.error (.ApiError [ApiErrorMessage.mk "ERR-5122" "already final"])) =
      ([("a", OrderInfo.mk 100 1 .BUY 0 false 100 5000 1 1 0 1 1 1),
        ("b", OrderInfo.mk 200 1 .SELL 0 false 100 5000 1 1 0 1 1 1)].filter
          (fun p => p.1 != "a"),
       [TradeEvent.OrderFilled "ts" "a" (OrderSide.BUY).toStr 100 1 7000 false 100 5000
          1 1]) :=
  ⟨⟨ApiErrorMessage.mk "ERR-5122" "already final", by simp, rfl⟩,
   (cancel_result_handling
       [("a", OrderInfo.mk 100 1 .BUY 0 false 100 5000 1 1 0 1 1 1),
        ("b", OrderInfo.mk 200 1 .SELL 0 false 100 5000 1 1 0 1 1 1)]
       "a" (OrderInfo.mk 100 1 .BUY 0 false 100 5000 1 1 0 1 1 1) "ts" 7000).2.1
     [ApiErrorMessage.mk "ERR-5122" "already final"]
     ⟨ApiErrorMessage.mk "ERR-5122" "already final", by simp, rfl⟩⟩

/-- Folding over a flattened list equals the nested fold. -/
theorem foldl_flatMap {α β γ : Type} (f : γ → β → γ) (g : α → List β)
    (l : List α) (init : γ) :
    List.foldl f init (l.flatMap g) =
      l.foldl (fun acc a => (g a).foldl f acc) init := by
  induction l generalizing init with
  | nil => rfl
  | cons a t ih => simp [List.flatMap_cons, List.foldl_append, ih]

/-- The nested loops of `maximize_expected_value` are the `bestStep` fold
over the cross product in iteration order. -/
theorem maximize_eq_fold (powf : ℚ → ℚ → ℚ) (mid_price volatility alpha : ℚ)
    (buy sell : List (FloatingExp × ℚ × BayesProb)) :
    maximize_expected_value powf mid_price volatility alpha buy sell =
      (List.foldl (bestStep pairKeys (pairEV powf mid_price volatility alpha)) none
        (crossPairs buy sell)).map Prod.fst := by
  unfold maximize_expected_value crossPairs
  rw [foldl_flatMap]
  congr 1
  have hstep : (fun (acc : Option ((FloatingExp × FloatingExp) × ℚ))
        (b : FloatingExp × ℚ × BayesProb) =>
      sell.foldl (fun acc s =>
        let ev := expected_value powf mid_price volatility alpha b.1 s.1 b.2 s.2
        match acc with
        | none => some ((b.1, s.1), ev)
        | some pb => if pb.2 < ev then some ((b.1, s.1), ev) else some pb) acc) =
      fun acc b => (sell.map fun s => (b, s)).foldl
        (bestStep pairKeys (pairEV powf mid_price volatility alpha)) acc := by
    funext acc b
    rw [List.foldl_map]
    have hinner : (fun (acc : Option ((FloatingExp × FloatingExp) × ℚ))
          (s : FloatingExp × ℚ × BayesProb) =>
        let ev := expected_value powf mid_price volatility alpha b.1 s.1 b.2 s.2
        match acc with
        | none => some ((b.1, s.1), ev)
        | some pb => if pb.2 < ev then some ((b.1, s.1), ev) else some pb) =
        fun acc s =>
          bestStep pairKeys (pairEV powf mid_price volatility alpha) acc (b, s) := by
      funext acc s
      cases acc with
      | none => rfl
      | some pb => rfl
    rw [hinner]
  rw [hstep]

/-- The `bestStep` fold over a nonempty list returns the first element
attaining the maximum score: the result is `some (g x, f x)` where `x`
splits the list as `l₁ ++ x :: l₂` with every earlier element scoring
strictly less and every element scoring at most `f x`. -/
theorem foldl_bestStep_spec {α β : Type} (g : α → β) (f : α → ℚ) (l : List α) :
    l ≠ [] → ∃ x l₁ l₂, List.foldl (bestStep g f) none l = some (g x, f x) ∧
      l = l₁ ++ x :: l₂ ∧ (∀ y ∈ l₁, f y < f x) ∧ (∀ y ∈ l, f y ≤ f x) := by
  induction l using List.reverseRecOn with
  | nil => intro h; exact absurd rfl h
  | append_singleton t a ih =>
    intro _
    rw [List.foldl_append, List.foldl_cons, List.foldl_nil]
    rcases eq_or_ne t [] with rfl | ht
    · refine ⟨a, [], [], rfl, rfl, by simp, ?_⟩
      intro y hy
      simp only [List.nil_append, List.mem_singleton] at hy
      subst hy
      exact le_rfl
    · obtain ⟨x, l₁, l₂, hfold, hsplit, hlt, hle⟩ := ih ht
      rw [hfold]
      by_cases hc : f x < f a
      · refine ⟨a, t, [], ?_, by simp, ?_, ?_⟩
        · simp [bestStep, hc]
        · intro y hy
          exact lt_of_le_of_lt (hle y hy) hc
        · intro y hy
          rcases List.mem_append.mp hy with h | h
          · exact le_of_lt (lt_of_le_of_lt (hle y h) hc)
          · simp only [List.mem_singleton] at h
            subst h
            exact le_rfl
      · refine ⟨x, l₁, l₂ ++ [a], ?_, ?_, hlt, ?_⟩
        · simp [bestStep, hc]
        · rw [hsplit]; simp
        · intro y hy
          rcases List.mem_append.mp hy with h | h
          · exact hle y h
          · simp only [List.mem_singleton] at h
            subst h
            exact not_lt.mp hc

/-- C2: for nonempty buy and sell level maps, `maximize_expected_value`
returns the keys of a cross-product pair whose expected value no pair
exceeds, and every pair encountered earlier in iteration order has strictly
smaller expected value (ties are broken by first encounter). -/
theorem maximize_ev_argmax (powf : ℚ → ℚ → ℚ) (mid_price volatility alpha : ℚ)
    (buy sell : List (FloatingExp × ℚ × BayesProb))
    (hb : buy ≠ []) (hs : sell ≠ []) :
    ∃ p l₁ l₂,
      maximize_expected_value powf mid_price volatility alpha buy sell =
        some (p.1.1, p.2.1) ∧
      crossPairs buy sell = l₁ ++ p :: l₂ ∧
      (∀ q ∈ l₁, pairEV powf mid_price volatility alpha q <
        pairEV powf mid_price volatility alpha p) ∧
      (∀ q ∈ crossPairs buy sell, pairEV powf mid_price volatility alpha q ≤
        pairEV powf mid_price volatility alpha p) := by
  have hcross : crossPairs buy sell ≠ [] := by
    obtain ⟨b, bs, rfl⟩ := List.exists_cons_of_ne_nil hb
    obtain ⟨s, ss, rfl⟩ := List.exists_cons_of_ne_nil hs
    simp [crossPairs]
  obtain ⟨x, l₁, l₂, hfold, hsplit, hlt, hle⟩ :=
    foldl_bestStep_spec pairKeys (pairEV powf mid_price volatility alpha)
      (crossPairs buy sell) hcross
  exact ⟨x, l₁, l₂, by rw [maximize_eq_fold, hfold]; rfl, hsplit, hlt, hle⟩

/-- Witness for C2: singleton level maps; the argmax property is obtained
at a concrete instance. -/
theorem maximize_ev_argmax_witness :
    ([(FloatingExp.mk 10 (-5) 1, ((99 : ℚ), BayesProb.new ⟨1, 1⟩ 10))] ≠ []) ∧
    ([(FloatingExp.mk 10 (-5) 2, ((101 : ℚ), BayesProb.new ⟨1, 1⟩ 10))] ≠ []) ∧
    ∃ p l₁ l₂,
      maximize_expected_value (fun _ _ => 0) 100 1 (1/2)
          [(FloatingExp.mk 10 (-5) 1, ((99 : ℚ), BayesProb.new ⟨1, 1⟩ 10))]
          [(FloatingExp.mk 10 (-5) 2, ((101 : ℚ), BayesProb.new ⟨1, 1⟩ 10))] =
        some (p.1.1, p.2.1) ∧
      crossPairs [(FloatingExp.mk 10 (-5) 1, ((99 : ℚ), BayesProb.new ⟨1, 1⟩ 10))]
          [(FloatingExp.mk 10 (-5) 2, ((101 : ℚ), BayesProb.new ⟨1, 1⟩ 10))] =
        l₁ ++ p :: l₂ ∧
      (∀ q ∈ l₁, pairEV (fun _ _ => 0) 100 1 (1/2) q <
        pairEV (fun _ _ => 0) 100 1 (1/2) p) ∧
      (∀ q ∈ crossPairs [(FloatingExp.mk 10 (-5) 1, ((99 : ℚ), BayesProb.new ⟨1, 1⟩ 10))]
          [(FloatingExp.mk 10 (-5) 2, ((101 : ℚ), BayesProb.new ⟨1, 1⟩ 10))],
        pairEV (fun _ _ => 0) 100 1 (1/2) q ≤ pairEV (fun _ _ => 0) 100 1 (1/2) p) :=
  ⟨by simp, by simp,
   maximize_ev_argmax (fun _ _ => 0) 100 1 (1/2)
     [(FloatingExp.mk 10 (-5) 1, ((99 : ℚ), BayesProb.new ⟨1, 1⟩ 10))]
     [(FloatingExp.mk 10 (-5) 2, ((101 : ℚ), BayesProb.new ⟨1, 1⟩ 10))]
     (by simp) (by simp)⟩

/-- Both components of every window produced by `windows2` are members of
the underlying list. -/
theorem windows2_mem {α : Type} (l : List α) (w : α × α) (hw : w ∈ windows2 l) :
    w.1 ∈ l ∧ w.2 ∈ l := by
  induction l with
  | nil => simp [windows2] at hw
  | cons a t ih =>
    cases t with
    | nil => simp [windows2] at hw
    | cons b rest =>
      rw [windows2] at hw
      rcases List.mem_cons.mp hw with h | h
      · subst h
        exact ⟨List.mem_cons_self _ _,
          List.mem_cons_of_mem _ (List.mem_cons_self _ _)⟩
      · have hm := ih h
        exact ⟨List.mem_cons_of_mem _ hm.1, List.mem_cons_of_mem _ hm.2⟩

/-- The EWMA recursion started at variance `0` stays at `0` over a list of
zero returns. -/
theorem ewma_foldl_zero (l : List ℚ) (h : ∀ r ∈ l, r = 0) :
    l.foldl (fun v r => LAMBDA * v + (1 - LAMBDA) * r ^ 2) 0 = 0 := by
  induction l with
  | nil => rfl
  | cons x xs ih =>
    rw [List.foldl_cons, h x (List.mem_cons_self x xs)]
    norm_num
    exact ih (fun r hr => h r (List.mem_cons_of_mem _ hr))

/-- C7: `calculate_volatility` (1) returns `6_500_000 * MIN_VOLATILITY_BPS`
on an empty execution list, (2) returns `price * MIN_VOLATILITY_BPS` on a
single execution, (3) is always at least `mean_price * MIN_VOLATILITY_BPS`
(the floor), and (4) returns exactly the floor `p * MIN_VOLATILITY_BPS` on
any nonempty constant price series `p > 0` (for any models of `ln`/`sqrt`
with `ln 1 = 0` and `sqrt 0 = 0`). -/
theorem volatility_floor_spec :
    (∀ (lnq sqrtq : ℚ → ℚ),
      calculate_volatility lnq sqrtq [] = 6500000 * MIN_VOLATILITY_BPS) ∧
    (∀ (lnq sqrtq : ℚ → ℚ) (e : ℕ × ℚ × ℤ),
      calculate_volatility lnq sqrtq [e] = (e.1 : ℚ) * MIN_VOLATILITY_BPS) ∧
    (∀ (lnq sqrtq : ℚ → ℚ) (executions : List (ℕ × ℚ × ℤ)),
      vol_mean_price executions * MIN_VOLATILITY_BPS ≤
        calculate_volatility lnq sqrtq executions) ∧
    (∀ (lnq sqrtq : ℚ → ℚ) (executions : List (ℕ × ℚ × ℤ)) (p : ℕ),
      executions ≠ [] → 0 < p → lnq 1 = 0 → sqrtq 0 = 0 →
      (∀ e ∈ executions, e.1 = p) →
      calculate_volatility lnq sqrtq executions = (p : ℚ) * MIN_VOLATILITY_BPS) := by
  refine ⟨fun lnq sqrtq => rfl, fun lnq sqrtq e => rfl, ?_, ?_⟩
  · intro lnq sqrtq executions
    unfold calculate_volatility vol_mean_price
    by_cases hlen : executions.length < 2
    · rw [if_pos hlen, if_pos hlen]
    · rw [if_neg hlen, if_neg hlen]
      dsimp only
      simp only [List.length_map]
      split_ifs with hemp
      · exact le_rfl
      · exact le_max_right _ _
  · intro lnq sqrtq executions p hne hp hln hsq hconst
    have hpq : (0 : ℚ) < (p : ℚ) := by exact_mod_cast hp
    have hpne : (p : ℚ) ≠ 0 := ne_of_gt hpq
    by_cases hlen : executions.length < 2
    · have h1 : executions.length = 1 := by
        have := List.length_pos.mpr hne
        omega
      obtain ⟨e, rfl⟩ := List.length_eq_one.mp h1
      have he : e.1 = p := hconst e (List.mem_cons_self _ _)
      unfold calculate_volatility
      rw [if_pos hlen]
      simp [he]
    · have hprices : ∀ x ∈ executions.map (fun e => (e.1 : ℚ)), x = (p : ℚ) := by
        intro x hx
        obtain ⟨e, he, rfl⟩ := List.mem_map.mp hx
        rw [hconst e he]
      have hlennz : ((executions.map (fun e => (e.1 : ℚ))).length : ℚ) ≠ 0 := by
        simp only [List.length_map]
        have : 2 ≤ executions.length := le_of_not_lt hlen
        positivity
      have hmean : (executions.map (fun e => (e.1 : ℚ))).sum /
          ((executions.map (fun e => (e.1 : ℚ))).length : ℚ) = (p : ℚ) := by
        rw [List.sum_eq_card_nsmul _ _ hprices, nsmul_eq_mul]
        exact mul_div_cancel_left₀ _ hlennz
      have hlog : ∀ x ∈ ((windows2 (executions.map (fun e => (e.1 : ℚ)))).filter
          (fun w => decide (0 < w.1) && decide (0 < w.2))).map
            (fun w => lnq (w.2 / w.1)), x = 0 := by
        intro x hx
        obtain ⟨w, hw, rfl⟩ := List.mem_map.mp hx
        have hw2 := windows2_mem _ _ (List.mem_of_mem_filter hw)
        rw [hprices w.1 hw2.1, hprices w.2 hw2.2, div_self hpne, hln]
      unfold calculate_volatility
      rw [if_neg hlen]
      dsimp only
      split_ifs with hemp
      · rw [hmean]
      · have hseed : ∀ x ∈ ((((windows2 (executions.map (fun e => (e.1 : ℚ)))).filter
            (fun w => decide (0 < w.1) && decide (0 < w.2))).map
              (fun w => lnq (w.2 / w.1))).take
            (min (((windows2 (executions.map (fun e => (e.1 : ℚ)))).filter
              (fun w => decide (0 < w.1) && decide (0 < w.2))).map
                (fun w => lnq (w.2 / w.1))).length 10)).map (fun r => r ^ 2),
            x = 0 := by
          intro x hx
          obtain ⟨r, hr, rfl⟩ := List.mem_map.mp hx
          rw [hlog r (List.take_subset _ _ hr)]
          norm_num
        rw [List.sum_eq_zero hseed, zero_div]
        rw [ewma_foldl_zero _ (fun r hr => hlog r (List.drop_subset _ _ hr))]
        rw [hsq, mul_zero, hmean]
        rw [max_eq_right]
        unfold MIN_VOLATILITY_BPS
        positivity

/-- Witness for C7: a constant series of three executions at price 100
yields exactly the floor `100 * MIN_VOLATILITY_BPS`. -/
theorem volatility_floor_spec_witness :
    ([((100 : ℕ), (1 : ℚ), (0 : ℤ)), (100, 1, 1), (100, 1, 2)] ≠
        ([] : List (ℕ × ℚ × ℤ))) ∧
      (0 : ℕ) < 100 ∧ (fun _ : ℚ => (0 : ℚ)) 1 = 0 ∧
      (fun _ : ℚ => (0 : ℚ)) 0 = 0 ∧
      (∀ e ∈ [((100 : ℕ), (1 : ℚ), (0 : ℤ)), (100, 1, 1), (100, 1, 2)], e.1 = 100) ∧
      calculate_volatility (fun _ => 0) (fun _ => 0)
          [((100 : ℕ), (1 : ℚ), (0 : ℤ)), (100, 1, 1), (100, 1, 2)] =
        ((100 : ℕ) : ℚ) * MIN_VOLATILITY_BPS :=
  ⟨by simp, by norm_num, rfl, rfl, by simp,
   volatility_floor_spec.2.2.2 (fun _ => 0) (fun _ => 0)
     [((100 : ℕ), (1 : ℚ), (0 : ℤ)), (100, 1, 1), (100, 1, 2)] 100
     (by simp) (by norm_num) rfl rfl (by simp)⟩

end GmoBot
